import Mathlib

/-!
Verification of the ball/barrier game core (`src/app/src/main.ts`).

The source is a TypeScript program operating on `THREE.Vector3` values with
JavaScript `number` (IEEE double) arithmetic.  We embed the numeric state over
`ℝ` (the idealised, rounding-free reading of the floating-point code) and keep
the full three components of every vector, because the source really does mix
a ball plane at `y = 0.15` with a drawing plane at `y = 0.1`, which affects
every distance it computes.

One genuinely floating-point behaviour matters to the degenerate-segment
analysis: `0/0` in JavaScript is `NaN`, and `Math.min`/`Math.max` propagate
`NaN`.  That path is modelled separately (`pointToLineDistanceJS`) with
`Option ℝ`, `none` standing for `NaN`.
-/

namespace BallBarrier

/-- The three components of a `THREE.Vector3` as used by the game. -/
@[ext] structure Vec3 where
  x : ℝ
  y : ℝ
  z : ℝ

namespace Vec3

/-- `THREE.Vector3.add` (componentwise). -/
def add (v w : Vec3) : Vec3 := ⟨v.x + w.x, v.y + w.y, v.z + w.z⟩

/-- `THREE.Vector3.sub` (componentwise). -/
def sub (v w : Vec3) : Vec3 := ⟨v.x - w.x, v.y - w.y, v.z - w.z⟩

/-- `THREE.Vector3.multiplyScalar`. -/
def multiplyScalar (v : Vec3) (c : ℝ) : Vec3 := ⟨v.x * c, v.y * c, v.z * c⟩

/-- `THREE.Vector3.dot`. -/
def dot (v w : Vec3) : ℝ := v.x * w.x + v.y * w.y + v.z * w.z

/-- `THREE.Vector3.lengthSq`. -/
def lengthSq (v : Vec3) : ℝ := v.x * v.x + v.y * v.y + v.z * v.z

/-- `THREE.Vector3.length`. -/
noncomputable def length (v : Vec3) : ℝ := Real.sqrt v.lengthSq

/-- `THREE.Vector3.normalize`, which divides by `this.length() || 1`: the zero
vector has length `0`, is divided by `1`, and so is mapped to itself.  Over ℝ
the convention `x / 0 = 0` makes plain componentwise division agree with that
fallback (a zero length forces a zero vector), so no case split is needed. -/
noncomputable def normalize (v : Vec3) : Vec3 :=
  ⟨v.x / v.length, v.y / v.length, v.z / v.length⟩

/-- `THREE.Vector3.distanceTo`. -/
noncomputable def distanceTo (v w : Vec3) : ℝ := (v.sub w).length

lemma lengthSq_nonneg (v : Vec3) : 0 ≤ v.lengthSq := by
  have hx := mul_self_nonneg v.x
  have hy := mul_self_nonneg v.y
  have hz := mul_self_nonneg v.z
  unfold lengthSq; linarith

lemma length_nonneg (v : Vec3) : 0 ≤ v.length := Real.sqrt_nonneg _

lemma sq_length (v : Vec3) : v.length * v.length = v.lengthSq :=
  Real.mul_self_sqrt v.lengthSq_nonneg

lemma lengthSq_eq_zero_iff (v : Vec3) : v.lengthSq = 0 ↔ v = ⟨0, 0, 0⟩ := by
  constructor
  · intro h
    have hx := mul_self_nonneg v.x
    have hy := mul_self_nonneg v.y
    have hz := mul_self_nonneg v.z
    unfold lengthSq at h
    have hx0 : v.x * v.x = 0 := by linarith
    have hy0 : v.y * v.y = 0 := by linarith
    have hz0 : v.z * v.z = 0 := by linarith
    ext <;> simpa using mul_self_eq_zero.mp (by assumption)
  · intro h; subst h; simp [lengthSq]

lemma length_eq_zero_iff (v : Vec3) : v.length = 0 ↔ v = ⟨0, 0, 0⟩ := by
  unfold length
  rw [Real.sqrt_eq_zero v.lengthSq_nonneg]
  exact v.lengthSq_eq_zero_iff

lemma length_pos_of_ne (v : Vec3) (h : v ≠ ⟨0, 0, 0⟩) : 0 < v.length := by
  rcases lt_or_eq_of_le v.length_nonneg with hlt | heq
  · exact hlt
  · exact absurd (v.length_eq_zero_iff.mp heq.symm) h

lemma length_multiplyScalar (v : Vec3) (c : ℝ) :
    (v.multiplyScalar c).length = |c| * v.length := by
  unfold length lengthSq multiplyScalar
  have h : (v.x * c) * (v.x * c) + (v.y * c) * (v.y * c) + (v.z * c) * (v.z * c)
      = (c * c) * (v.x * v.x + v.y * v.y + v.z * v.z) := by ring
  simp only [h]
  rw [Real.sqrt_mul (mul_self_nonneg c), Real.sqrt_mul_self_eq_abs]

lemma sub_eq_zero_iff (v w : Vec3) : v.sub w = ⟨0, 0, 0⟩ ↔ v = w := by
  constructor
  · intro h
    have hx := congrArg Vec3.x h
    have hy := congrArg Vec3.y h
    have hz := congrArg Vec3.z h
    simp only [sub] at hx hy hz
    ext <;> linarith
  · intro h; subst h; simp [sub]

end Vec3

/-- `pointToLineDistance` (main.ts lines 349–355): distance from `point` to the
projection of `point` onto segment `lineStart`–`lineEnd`, with the projection
parameter `t` clamped to `[0, 1]`.  The degenerate divisor case (`lengthSq = 0`)
follows Lean's `0 / 0 = 0` convention here; the JavaScript `NaN` behaviour of
that same path is modelled separately by `pointToLineDistanceJS`. -/
noncomputable def pointToLineDistance (point lineStart lineEnd : Vec3) : ℝ :=
  let line := lineEnd.sub lineStart
  let pointToStart := point.sub lineStart
  let t := max 0 (min 1 (pointToStart.dot line / line.lengthSq))
  let projection := lineStart.add (line.multiplyScalar t)
  point.distanceTo projection

/-- `Math.max(0, Math.min(1, q))` under JavaScript semantics: `Math.min` and
`Math.max` return `NaN` as soon as any argument is `NaN` (`none` here). -/
def jsClamp01 (q : Option ℝ) : Option ℝ := q.map (fun r => max 0 (min 1 r))

/-- JavaScript division as used in `pointToLineDistance`: the divisor is
`line.lengthSq`, which vanishes only for a degenerate segment, and then the
dividend `pointToStart.dot line` is exactly `0` as well, giving `0/0 = NaN`.
(A nonzero dividend over a zero divisor would give `±Infinity` in JavaScript;
that combination cannot reach this call site, and is also mapped to `none`.) -/
noncomputable def jsDiv (a b : ℝ) : Option ℝ :=
  if b = 0 then none else some (a / b)

/-- `pointToLineDistance` under JavaScript `NaN` semantics (`none` = `NaN`):
once `t` is `NaN` it contaminates the projection point and the final distance;
once `t` is an actual number the rest is plain real arithmetic. -/
noncomputable def pointToLineDistanceJS (point lineStart lineEnd : Vec3) : Option ℝ :=
  let line := lineEnd.sub lineStart
  let pointToStart := point.sub lineStart
  let t := jsClamp01 (jsDiv (pointToStart.dot line) line.lengthSq)
  t.map (fun tv => point.distanceTo (lineStart.add (line.multiplyScalar tv)))

/-- A ball (main.ts interface `Ball`): the mesh position, the velocity, the
radius.  Only the position is kept of the mesh. -/
@[ext] structure Ball where
  position : Vec3
  velocity : Vec3
  radius : ℝ

/-- One collidable line segment (main.ts interface `LineSegment`).  The source
field `end` is a Lean keyword, rendered here as `endp`. -/
structure Segment where
  start : Vec3
  endp : Vec3

/-- A finalized barrier (main.ts interface `Line`), reduced to its collision
segments; the render mesh is dropped. -/
abbrev Line := List Segment

/-- `this.worldSize = 10`. -/
def worldSize : ℝ := 10

/-- `this.boundarySize = this.worldSize * 0.9`. -/
noncomputable def boundarySize : ℝ := worldSize * 0.9

/-- The session state of `BallBarrierGame`: exactly the fields the physics and
game-state core reads or writes (`lastTime` is the wall clock, `currentLine`
and the meshes are render objects, `ballCount` is written once and never read
by the core; all are dropped). -/
structure GameState where
  gameStarted : Bool
  gameTime : ℝ
  ballSpeed : ℝ
  nextBallSpawn : ℝ
  balls : List Ball
  lines : List Line
  isDrawing : Bool
  currentLinePoints : List Vec3

/-- `gameOver` (main.ts lines 385–391): stops the game; the remaining body
only updates DOM elements. -/
def gameOver (s : GameState) : GameState := { s with gameStarted := false }

/-- The velocity update of `checkBallLineCollision` (main.ts lines 335–336):
`ball.velocity.sub(normal.multiplyScalar(2 * dot))` where
`dot = ball.velocity.dot(normal)`. -/
def reflectVel (v normal : Vec3) : Vec3 :=
  v.sub (normal.multiplyScalar (2 * v.dot normal))

/-- The collision normal of `checkBallLineCollision` (main.ts lines 332–333):
`lineDirection = normalize(end - start)`, `normal = (-dir.z, 0, dir.x)`. -/
noncomputable def segNormal (seg : Segment) : Vec3 :=
  let lineDirection := (seg.endp.sub seg.start).normalize
  ⟨-lineDirection.z, 0, lineDirection.x⟩

/-- The body of the collision branch of `checkBallLineCollision` (main.ts
lines 330–344) for one segment: when the ball penetrates (clamped distance
below radius) reflect the velocity and push the position away from the
*unclamped* projection of the ball onto the segment's carrier line.  The
source recomputes `pointToLineDistance` inside the push magnitude; the
position has not changed in between, so it is the same value. -/
noncomputable def resolveSegment (ball : Ball) (seg : Segment) : Ball :=
  if pointToLineDistance ball.position seg.start seg.endp < ball.radius then
    let lineDirection := (seg.endp.sub seg.start).normalize
    let velocity1 := reflectVel ball.velocity (segNormal seg)
    let toBall := ball.position.sub seg.start
    let projection := toBall.dot lineDirection
    let closestPoint := seg.start.add (lineDirection.multiplyScalar projection)
    let pushDirection := (ball.position.sub closestPoint).normalize
    let position1 := ball.position.add (pushDirection.multiplyScalar
      (ball.radius - pointToLineDistance ball.position seg.start seg.endp + 0.01))
    { ball with position := position1, velocity := velocity1 }
  else ball

/-- `checkBallLineCollision` (main.ts lines 327–347): apply the collision
branch for every segment of every finalized line, in insertion order. -/
noncomputable def checkBallLineCollision (ball : Ball) (lines : List Line) : Ball :=
  lines.foldl (fun b line => line.foldl (fun b1 seg => resolveSegment b1 seg) b) ball

/-- The integration step of `updateBalls` (main.ts line 313):
`position += velocity * deltaTime`. -/
def moveBall (dt : ℝ) (b : Ball) : Ball :=
  { b with position := b.position.add (b.velocity.multiplyScalar dt) }

/-- The boundary-breach test of `updateBalls` (main.ts lines 316–317). -/
noncomputable def breachesBoundary (b : Ball) : Prop :=
  |b.position.x| > boundarySize / 2 - b.radius ∨
  |b.position.z| > boundarySize / 2 - b.radius

noncomputable instance (b : Ball) : Decidable (breachesBoundary b) := by
  unfold breachesBoundary; infer_instance

/-- The loop of `updateBalls` (main.ts lines 309–324) over the list of balls
in processing order (the source iterates indices from last to first, so this
is applied to the *reversed* ball list).  Each ball is moved, then checked
against the boundary — a breach returns immediately (`Bool` flag `true`),
leaving the remaining balls untouched — and otherwise collision-resolved. -/
noncomputable def updateBallsGo (dt : ℝ) (lines : List Line) : List Ball → List Ball × Bool
  | [] => ([], false)
  | b :: rest =>
    let b1 := moveBall dt b
    if breachesBoundary b1 then (b1 :: rest, true)
    else
      let b2 := checkBallLineCollision b1 lines
      let r := updateBallsGo dt lines rest
      (b2 :: r.1, r.2)

/-- `updateBalls` (main.ts lines 308–325): run the per-ball loop from the last
ball down to the first; a boundary breach calls `gameOver` and aborts the
loop. -/
noncomputable def updateBalls (dt : ℝ) (s : GameState) : GameState :=
  let r := updateBallsGo dt s.lines s.balls.reverse
  { s with balls := r.1.reverse,
           gameStarted := if r.2 then false else s.gameStarted }

/-- The ball built by `spawnBall` (main.ts lines 281–306) for spawn angle `θ`
and current `ballSpeed`: mesh position `(0, 0.15, 0)`, velocity
`(cos θ, 0, sin θ) * ballSpeed`, radius `0.15`. -/
noncomputable def spawnedBall (θ speed : ℝ) : Ball :=
  { position := ⟨0, 0.15, 0⟩,
    velocity := ⟨Real.cos θ * speed, 0, Real.sin θ * speed⟩,
    radius := 0.15 }

/-- `spawnBall` as a state update: pushes the new ball; the random angle of
`Math.random() * Math.PI * 2` is passed in as the parameter `θ`. -/
noncomputable def spawnBall (θ : ℝ) (s : GameState) : GameState :=
  { s with balls := s.balls ++ [spawnedBall θ s.ballSpeed] }

/-- The clock, difficulty-ramp and spawn phase of `gameLoop` (main.ts lines
400–415): `gameTime += deltaTime`; `ballSpeed = 2 + gameTime * 0.1`; if
`gameTime > nextBallSpawn` spawn one ball and advance `nextBallSpawn` by
`Math.max(3, 8 - gameTime * 0.1)`. -/
noncomputable def tickPhase (dt θ : ℝ) (s : GameState) : GameState :=
  let s1 := { s with gameTime := s.gameTime + dt }
  let s2 := { s1 with ballSpeed := 2 + s1.gameTime * 0.1 }
  if s2.gameTime > s2.nextBallSpawn then
    { spawnBall θ s2 with
        nextBallSpawn := s2.nextBallSpawn + max 3 (8 - s2.gameTime * 0.1) }
  else s2

/-- One simulation tick, `gameLoop` (main.ts lines 393–424) minus rendering
and re-scheduling: early return when the game is not running, then the
clock/ramp/spawn phase, then `updateBalls`. -/
noncomputable def tick (dt θ : ℝ) (s : GameState) : GameState :=
  if s.gameStarted = false then s else updateBalls dt (tickPhase dt θ s)

/-- The segment list `finalizeLine` builds from the draw buffer (main.ts lines
234–240): consecutive point pairs. -/
def segmentsOf : List Vec3 → List Segment
  | p :: q :: rest => ⟨p, q⟩ :: segmentsOf (q :: rest)
  | _ => []

/-- The out-of-bounds test of `checkLineOutOfBounds` (main.ts lines 270–273)
for one segment. -/
noncomputable def segmentOut (seg : Segment) : Prop :=
  |seg.start.x| > boundarySize / 2 ∨ |seg.start.z| > boundarySize / 2 ∨
  |seg.endp.x| > boundarySize / 2 ∨ |seg.endp.z| > boundarySize / 2

noncomputable instance (seg : Segment) : Decidable (segmentOut seg) := by
  unfold segmentOut; infer_instance

/-- `checkLineOutOfBounds` (main.ts lines 267–279): scan every segment of
every finalized line and call `gameOver` at the first violation.  The net
state effect of the early-returning loop is: game over exactly when some
segment violates the bound. -/
noncomputable def checkLineOutOfBounds (s : GameState) : GameState :=
  if s.lines.any (fun line => line.any (fun seg => decide (segmentOut seg)))
  then gameOver s else s

/-- `finalizeLine` (main.ts lines 230–265): needs at least two buffered
points, appends the new barrier built from consecutive point pairs, then runs
the out-of-bounds check.  The buffer itself is cleared by `onPointerUp`, not
here. -/
noncomputable def finalizeLine (s : GameState) : GameState :=
  if s.currentLinePoints.length < 2 then s
  else checkLineOutOfBounds
    { s with lines := s.lines ++ [segmentsOf s.currentLinePoints] }

/-- `startGame` (main.ts lines 357–377): reset the clock, speed and spawn
threshold, clear balls and lines, spawn the first ball (at `ballSpeed = 2`).
DOM work and the kick-off of the render loop are dropped. -/
noncomputable def startGame (θ : ℝ) (s : GameState) : GameState :=
  spawnBall θ
    { s with gameStarted := true, gameTime := 0, ballSpeed := 2,
             nextBallSpawn := 5, balls := [], lines := [] }

/-- `restartGame` (main.ts lines 379–383): hide the game-over panel (DOM,
dropped) and run `startGame`. -/
noncomputable def restartGame (θ : ℝ) (s : GameState) : GameState := startGame θ s

/-! ### Helper lemmas about the tick machinery -/

lemma updateBallsGo_flag (dt : ℝ) (lines : List Line) :
    ∀ l : List Ball, (updateBallsGo dt lines l).2 = true ↔
      ∃ b ∈ l, breachesBoundary (moveBall dt b)
  | [] => by simp [updateBallsGo]
  | b :: rest => by
    by_cases h : breachesBoundary (moveBall dt b)
    · simp [updateBallsGo, h]
    · simp only [updateBallsGo, if_neg h]
      rw [updateBallsGo_flag dt lines rest]
      simp [h]

lemma updateBallsGo_length (dt : ℝ) (lines : List Line) :
    ∀ l : List Ball, (updateBallsGo dt lines l).1.length = l.length
  | [] => by simp [updateBallsGo]
  | b :: rest => by
    by_cases h : breachesBoundary (moveBall dt b)
    · simp [updateBallsGo, h]
    · simp only [updateBallsGo, if_neg h, List.length_cons]
      rw [updateBallsGo_length dt lines rest]

lemma updateBallsGo_abort (dt : ℝ) (lines : List Line) :
    ∀ (pre : List Ball) (b : Ball) (post : List Ball),
      (∀ x ∈ pre, ¬ breachesBoundary (moveBall dt x)) →
      breachesBoundary (moveBall dt b) →
      updateBallsGo dt lines (pre ++ b :: post) =
        (pre.map (fun x => checkBallLineCollision (moveBall dt x) lines)
          ++ moveBall dt b :: post, true)
  | [], b, post => by
    intro _ hb
    simp [updateBallsGo, hb]
  | a :: pre, b, post => by
    intro hpre hb
    have ha : ¬ breachesBoundary (moveBall dt a) := hpre a (by simp)
    have hrest : ∀ x ∈ pre, ¬ breachesBoundary (moveBall dt x) := by
      intro x hx; exact hpre x (by simp [hx])
    simp only [List.cons_append, updateBallsGo, if_neg ha, List.append_eq,
      updateBallsGo_abort dt lines pre b post hrest hb, List.map_cons]

lemma updateBalls_nextBallSpawn (dt : ℝ) (s : GameState) :
    (updateBalls dt s).nextBallSpawn = s.nextBallSpawn := rfl

lemma updateBalls_gameTime (dt : ℝ) (s : GameState) :
    (updateBalls dt s).gameTime = s.gameTime := rfl

lemma updateBalls_lines (dt : ℝ) (s : GameState) :
    (updateBalls dt s).lines = s.lines := rfl

lemma updateBalls_length (dt : ℝ) (s : GameState) :
    (updateBalls dt s).balls.length = s.balls.length := by
  show (updateBallsGo dt s.lines s.balls.reverse).1.reverse.length = _
  rw [List.length_reverse, updateBallsGo_length, List.length_reverse]

lemma updateBalls_gameStarted (dt : ℝ) (s : GameState) (hs : s.gameStarted = true) :
    (updateBalls dt s).gameStarted = false ↔
      ∃ b ∈ s.balls, breachesBoundary (moveBall dt b) := by
  show (if (updateBallsGo dt s.lines s.balls.reverse).2 then false else s.gameStarted)
      = false ↔ _
  rw [hs]
  constructor
  · intro h
    by_cases hf : (updateBallsGo dt s.lines s.balls.reverse).2 = true
    · have := (updateBallsGo_flag dt s.lines _).mp hf
      simpa [List.mem_reverse] using this
    · rw [if_neg hf] at h
      simp at h
  · intro h
    have hf : (updateBallsGo dt s.lines s.balls.reverse).2 = true :=
      (updateBallsGo_flag dt s.lines _).mpr (by simpa [List.mem_reverse] using h)
    rw [if_pos hf]

lemma tickPhase_gameStarted (dt θ : ℝ) (s : GameState) :
    (tickPhase dt θ s).gameStarted = s.gameStarted := by
  unfold tickPhase spawnBall
  dsimp only
  split <;> rfl

lemma tickPhase_lines (dt θ : ℝ) (s : GameState) :
    (tickPhase dt θ s).lines = s.lines := by
  unfold tickPhase spawnBall
  dsimp only
  split <;> rfl

lemma tickPhase_balls (dt θ : ℝ) (s : GameState) :
    (tickPhase dt θ s).balls =
      if s.gameTime + dt > s.nextBallSpawn
      then s.balls ++ [spawnedBall θ (2 + (s.gameTime + dt) * 0.1)]
      else s.balls := by
  unfold tickPhase spawnBall
  dsimp only
  by_cases h : s.gameTime + dt > s.nextBallSpawn
  · rw [if_pos h, if_pos h]
  · rw [if_neg h, if_neg h]

lemma tickPhase_nextBallSpawn (dt θ : ℝ) (s : GameState) :
    (tickPhase dt θ s).nextBallSpawn =
      if s.gameTime + dt > s.nextBallSpawn
      then s.nextBallSpawn + max 3 (8 - (s.gameTime + dt) * 0.1)
      else s.nextBallSpawn := by
  unfold tickPhase spawnBall
  dsimp only
  by_cases h : s.gameTime + dt > s.nextBallSpawn
  · rw [if_pos h, if_pos h]
  · rw [if_neg h, if_neg h]

lemma tickPhase_gameTime (dt θ : ℝ) (s : GameState) :
    (tickPhase dt θ s).gameTime = s.gameTime + dt := by
  unfold tickPhase spawnBall
  dsimp only
  split <;> rfl

lemma tick_eq_of_started (dt θ : ℝ) (s : GameState) (hs : s.gameStarted = true) :
    tick dt θ s = updateBalls dt (tickPhase dt θ s) := by
  unfold tick
  rw [if_neg (by rw [hs]; simp)]

/-- Evaluate `updateBalls` once the loop's result is known. -/
lemma updateBalls_eval (dt : ℝ) (s : GameState) (bs : List Ball) (flag : Bool)
    (h : updateBallsGo dt s.lines s.balls.reverse = (bs, flag)) :
    updateBalls dt s =
      { s with
          balls := bs.reverse,
          gameStarted := if flag then false else s.gameStarted } := by
  unfold updateBalls
  dsimp only
  rw [h]

/-! ### Concrete states used to instantiate the hypotheses of the claims -/

/-- A running state holding one stationary ball already past the wall. -/
noncomputable def stateBallOutside : GameState where
  gameStarted := true
  gameTime := 0
  ballSpeed := 2
  nextBallSpawn := 5
  balls := [{ position := ⟨5, 0.15, 0⟩, velocity := ⟨0, 0, 0⟩, radius := 0.15 }]
  lines := []
  isDrawing := false
  currentLinePoints := []

/-- A running state with a two-point in-bounds draw buffer ready to finalize. -/
noncomputable def stateDrawDone : GameState where
  gameStarted := true
  gameTime := 0
  ballSpeed := 2
  nextBallSpawn := 5
  balls := []
  lines := []
  isDrawing := true
  currentLinePoints := [⟨0, 0.1, 0⟩, ⟨1, 0.1, 0⟩]

/-- A running state whose clock is about to cross the spawn threshold. -/
noncomputable def stateNearSpawn : GameState where
  gameStarted := true
  gameTime := 6
  ballSpeed := 2.6
  nextBallSpawn := 5
  balls := []
  lines := []
  isDrawing := false
  currentLinePoints := []

/-- A concrete game-over state with a leftover barrier. -/
noncomputable def stateOver : GameState where
  gameStarted := false
  gameTime := 42
  ballSpeed := 6.2
  nextBallSpawn := 17
  balls := []
  lines := [[⟨⟨9, 0.1, 0⟩, ⟨9, 0.1, 1⟩⟩]]
  isDrawing := false
  currentLinePoints := []

/-! ### Claim theorems: session controller -/

/-- C3: during a running session, a tick transitions to game-over exactly when
some ball of the tick (after the spawn phase), with its position advanced by
`velocity * deltaTime`, breaches `|x| > boundarySize/2 - radius` or
`|z| > boundarySize/2 - radius`; on such a breach the loop aborts early, so in
processing order (last index first) the balls after the first breaching one are
returned exactly as they were — neither moved nor collision-resolved. -/
theorem claim_C3 (dt θ : ℝ) (s : GameState) (hs : s.gameStarted = true) :
    ((tick dt θ s).gameStarted = false ↔
      ∃ b ∈ (tickPhase dt θ s).balls, breachesBoundary (moveBall dt b)) ∧
    ∀ (pre : List Ball) (b : Ball) (post : List Ball),
      (tickPhase dt θ s).balls.reverse = pre ++ b :: post →
      (∀ x ∈ pre, ¬ breachesBoundary (moveBall dt x)) →
      breachesBoundary (moveBall dt b) →
      (tick dt θ s).balls.reverse =
        pre.map (fun x => checkBallLineCollision (moveBall dt x) (tickPhase dt θ s).lines)
          ++ moveBall dt b :: post := by
  rw [tick_eq_of_started dt θ s hs]
  constructor
  · exact updateBalls_gameStarted dt _ (by rw [tickPhase_gameStarted, hs])
  · intro pre b post hdec hpre hb
    show (updateBallsGo dt (tickPhase dt θ s).lines
        (tickPhase dt θ s).balls.reverse).1.reverse.reverse = _
    rw [List.reverse_reverse, hdec, updateBallsGo_abort dt _ pre b post hpre hb]

/-- Witness for `claim_C3`: a single stationary ball already past the wall is
detected after its (null) move and ends the game on the next tick. -/
theorem claim_C3_witness :
    (tick 1 0 stateBallOutside).gameStarted = false := by
  apply (claim_C3 1 0 _ rfl).1.mpr
  refine ⟨{ position := ⟨5, 0.15, 0⟩, velocity := ⟨0, 0, 0⟩, radius := 0.15 }, ?_, ?_⟩
  · rw [tickPhase_balls, if_neg (by norm_num [stateBallOutside])]
    simp [stateBallOutside]
  · unfold breachesBoundary moveBall boundarySize worldSize
    left
    simp only [Vec3.add, Vec3.multiplyScalar]
    rw [abs_of_nonneg (by norm_num)]
    norm_num

/-- C4: finalizing a buffered line of at least two points always appends the
new barrier (even when it ends the game); in a session whose existing barriers
are all within bounds — the invariant of every reachable running session — the
finalize transitions to game-over exactly when some endpoint of some new
segment leaves `|x| ≤ boundarySize/2` and `|z| ≤ boundarySize/2`. -/
theorem claim_C4 (s : GameState) (hrun : s.gameStarted = true)
    (hlen : 2 ≤ s.currentLinePoints.length)
    (hprev : ∀ line ∈ s.lines, ∀ seg ∈ line, ¬ segmentOut seg) :
    ((∀ seg ∈ segmentsOf s.currentLinePoints, ¬ segmentOut seg) →
        (finalizeLine s).gameStarted = true) ∧
    ((∃ seg ∈ segmentsOf s.currentLinePoints, segmentOut seg) →
        (finalizeLine s).gameStarted = false) ∧
    (finalizeLine s).lines = s.lines ++ [segmentsOf s.currentLinePoints] := by
  have hnot : ¬ s.currentLinePoints.length < 2 := by omega
  unfold finalizeLine checkLineOutOfBounds
  rw [if_neg hnot]
  have hiff :
      ((({ s with lines := s.lines ++ [segmentsOf s.currentLinePoints] } :
          GameState).lines.any
            (fun line => line.any (fun seg => decide (segmentOut seg)))) = true)
        ↔ ∃ seg ∈ segmentsOf s.currentLinePoints, segmentOut seg := by
    show ((s.lines ++ [segmentsOf s.currentLinePoints]).any
        (fun line => line.any (fun seg => decide (segmentOut seg))) = true) ↔ _
    simp only [List.any_append, Bool.or_eq_true, List.any_cons, List.any_nil,
      Bool.or_false, List.any_eq_true, decide_eq_true_eq]
    constructor
    · rintro (⟨line, hline, seg, hseg, hout⟩ | h)
      · exact (hprev line hline seg hseg hout).elim
      · exact h
    · exact Or.inr
  by_cases hc : ∃ seg ∈ segmentsOf s.currentLinePoints, segmentOut seg
  · rw [if_pos (hiff.mpr hc)]
    refine ⟨fun hall => ?_, fun _ => rfl, rfl⟩
    obtain ⟨seg, hseg, hout⟩ := hc
    exact (hall seg hseg hout).elim
  · rw [if_neg (fun h => hc (hiff.mp h))]
    exact ⟨fun _ => hrun, fun h => (hc h).elim, rfl⟩

/-- Witness for `claim_C4`: a two-point in-bounds line is finalized without
ending the game. -/
theorem claim_C4_witness :
    (finalizeLine stateDrawDone).gameStarted = true := by
  apply (claim_C4 _ rfl (by simp [stateDrawDone]) (by simp [stateDrawDone])).1
  intro seg hseg
  simp only [stateDrawDone, segmentsOf, List.mem_singleton] at hseg
  subst hseg
  unfold segmentOut boundarySize worldSize
  push_neg
  refine ⟨?_, ?_, ?_, ?_⟩ <;> · rw [abs_of_nonneg (by norm_num)]; norm_num

/-- C5: on a running tick with updated clock `t = gameTime + deltaTime`, if
`t > nextBallSpawn` exactly one ball is added and the threshold is advanced by
`max 3 (8 - t * 0.1)`; otherwise the ball count and the threshold are both
unchanged.  The increment is at least `3` and non-increasing in the clock. -/
theorem claim_C5 (dt θ : ℝ) (s : GameState) (hs : s.gameStarted = true) :
    ((s.gameTime + dt > s.nextBallSpawn →
        (tick dt θ s).balls.length = s.balls.length + 1 ∧
        (tick dt θ s).nextBallSpawn =
          s.nextBallSpawn + max 3 (8 - (s.gameTime + dt) * 0.1)) ∧
      (¬ s.gameTime + dt > s.nextBallSpawn →
        (tick dt θ s).balls.length = s.balls.length ∧
        (tick dt θ s).nextBallSpawn = s.nextBallSpawn)) ∧
    3 ≤ max 3 (8 - (s.gameTime + dt) * 0.1) ∧
    ∀ t1 t2 : ℝ, t1 ≤ t2 →
      max 3 (8 - t2 * 0.1) ≤ max 3 (8 - t1 * 0.1) := by
  rw [tick_eq_of_started dt θ s hs]
  refine ⟨⟨fun h => ?_, fun h => ?_⟩, le_max_left _ _,
    fun t1 t2 h12 => max_le_max le_rfl (by linarith)⟩
  · constructor
    · rw [updateBalls_length, tickPhase_balls, if_pos h]; simp
    · rw [updateBalls_nextBallSpawn, tickPhase_nextBallSpawn, if_pos h]
  · constructor
    · rw [updateBalls_length, tickPhase_balls, if_neg h]
    · rw [updateBalls_nextBallSpawn, tickPhase_nextBallSpawn, if_neg h]

/-- Witness for `claim_C5`: with the clock crossing the threshold the tick
spawns one ball and advances the threshold. -/
theorem claim_C5_witness :
    (tick 1.2 0 stateNearSpawn).balls.length = 1 ∧
    (tick 1.2 0 stateNearSpawn).nextBallSpawn = 5 + max 3 (8 - (6 + 1.2) * 0.1) := by
  have h := (claim_C5 1.2 0 stateNearSpawn rfl).1.1 (by norm_num [stateNearSpawn])
  simpa [stateNearSpawn] using h

/-- C7: the clock/ramp/spawn phase keeps every pre-existing ball untouched
(they form an unchanged prefix of the list), and when it spawns, the new ball
sits at `x = z = 0` with velocity `(cos θ, 0, sin θ)` scaled by the
`ballSpeed = 2 + gameTime * 0.1` of the very tick that spawns it, and radius
`0.15`. -/
theorem claim_C7 (dt θ : ℝ) (s : GameState) :
    (tickPhase dt θ s).balls.take s.balls.length = s.balls ∧
    (s.gameTime + dt > s.nextBallSpawn →
      (tickPhase dt θ s).balls =
        s.balls ++ [spawnedBall θ (2 + (s.gameTime + dt) * 0.1)] ∧
      (spawnedBall θ (2 + (s.gameTime + dt) * 0.1)).position.x = 0 ∧
      (spawnedBall θ (2 + (s.gameTime + dt) * 0.1)).position.z = 0 ∧
      (spawnedBall θ (2 + (s.gameTime + dt) * 0.1)).velocity =
        ⟨Real.cos θ * (2 + (s.gameTime + dt) * 0.1), 0,
          Real.sin θ * (2 + (s.gameTime + dt) * 0.1)⟩ ∧
      (spawnedBall θ (2 + (s.gameTime + dt) * 0.1)).radius = 0.15) := by
  constructor
  · rw [tickPhase_balls]
    by_cases h : s.gameTime + dt > s.nextBallSpawn
    · rw [if_pos h, List.take_left]
    · rw [if_neg h, List.take_length]
  · intro h
    exact ⟨by rw [tickPhase_balls, if_pos h], rfl, rfl, rfl, rfl⟩

/-- Witness for `claim_C7`: a spawning tick appends exactly the specified
ball. -/
theorem claim_C7_witness :
    (tickPhase 1.2 0 stateNearSpawn).balls =
      stateNearSpawn.balls ++
        [spawnedBall 0 (2 + (stateNearSpawn.gameTime + 1.2) * 0.1)] :=
  ((claim_C7 1.2 0 stateNearSpawn).2 (by norm_num [stateNearSpawn])).1

/-- C8: restarting from a game-over state rebuilds exactly the state a fresh
start builds from any state: zero clock, base speed 2, threshold 5, a single
freshly spawned ball, and no barriers. -/
theorem claim_C8 (θ : ℝ) (s : GameState) (_hs : s.gameStarted = false) :
    (restartGame θ s).gameTime = 0 ∧ (restartGame θ s).ballSpeed = 2 ∧
    (restartGame θ s).nextBallSpawn = 5 ∧
    (restartGame θ s).balls = [spawnedBall θ 2] ∧
    (restartGame θ s).lines = [] ∧ (restartGame θ s).gameStarted = true ∧
    ∀ s0 : GameState,
      (restartGame θ s).gameTime = (startGame θ s0).gameTime ∧
      (restartGame θ s).ballSpeed = (startGame θ s0).ballSpeed ∧
      (restartGame θ s).nextBallSpawn = (startGame θ s0).nextBallSpawn ∧
      (restartGame θ s).balls = (startGame θ s0).balls ∧
      (restartGame θ s).lines = (startGame θ s0).lines ∧
      (restartGame θ s).gameStarted = (startGame θ s0).gameStarted :=
  ⟨rfl, rfl, rfl, rfl, rfl, rfl, fun _ => ⟨rfl, rfl, rfl, rfl, rfl, rfl⟩⟩

/-- Witness for `claim_C8` at a concrete game-over state. -/
theorem claim_C8_witness :
    (restartGame 0 stateOver).gameTime = 0 ∧
    (restartGame 0 stateOver).balls = [spawnedBall 0 2] :=
  ⟨(claim_C8 0 stateOver rfl).1, (claim_C8 0 stateOver rfl).2.2.2.1⟩

/-! ### Evaluation helpers for concrete geometry -/

lemma Vec3.length_eq (v : Vec3) (r : ℝ) (hr : 0 ≤ r) (h : r * r = v.lengthSq) :
    v.length = r := by
  unfold length
  rw [← h, Real.sqrt_mul_self hr]

lemma Vec3.normalize_eval (v : Vec3) (r : ℝ) (hr : 0 ≤ r) (h : r * r = v.lengthSq) :
    v.normalize = ⟨v.x / r, v.y / r, v.z / r⟩ := by
  unfold normalize
  rw [v.length_eq r hr h]

lemma normalize_unitX : Vec3.normalize ⟨1, 0, 0⟩ = ⟨1, 0, 0⟩ := by
  rw [Vec3.normalize_eval ⟨1, 0, 0⟩ 1 (by norm_num) (by norm_num [Vec3.lengthSq])]
  ext <;> norm_num

/-- Evaluate `pointToLineDistance` once the clamped parameter and the squared
distance are known. -/
lemma pointToLineDistance_eval (p a b : Vec3) (t r : ℝ)
    (ht : max 0 (min 1 ((p.sub a).dot (b.sub a) / (b.sub a).lengthSq)) = t)
    (hr : 0 ≤ r)
    (h : r * r = (p.sub (a.add ((b.sub a).multiplyScalar t))).lengthSq) :
    pointToLineDistance p a b = r := by
  unfold pointToLineDistance Vec3.distanceTo
  dsimp only
  rw [ht, Vec3.length_eq _ r hr h]

/-! ### Claim theorems: geometry -/

/-- C6: the velocity reflection of the collision resolver preserves the norm
whenever the normal has unit length, and the normal the resolver builds — the
rotation `(-dir.z, 0, dir.x)` of the normalized segment direction — is itself
unit length for every non-degenerate segment lying in a horizontal plane (all
barrier segments have both endpoints at the drawing height `y = 0.1`). -/
theorem claim_C6 :
    (∀ v n : Vec3, n.lengthSq = 1 → (reflectVel v n).length = v.length) ∧
    (∀ seg : Segment, seg.endp.sub seg.start ≠ ⟨0, 0, 0⟩ →
      (seg.endp.sub seg.start).y = 0 → (segNormal seg).length = 1) := by
  constructor
  · intro v n h
    unfold Vec3.length
    congr 1
    unfold reflectVel Vec3.sub Vec3.multiplyScalar Vec3.dot Vec3.lengthSq at *
    dsimp only at *
    linear_combination (4 * (v.x * n.x + v.y * n.y + v.z * n.z) ^ 2) * h
  · intro seg hw hy
    have hL : 0 < (seg.endp.sub seg.start).length :=
      Vec3.length_pos_of_ne _ hw
    have hLne : (seg.endp.sub seg.start).length ≠ 0 := ne_of_gt hL
    have hsq := Vec3.sq_length (seg.endp.sub seg.start)
    unfold segNormal Vec3.normalize
    dsimp only
    unfold Vec3.length Vec3.lengthSq at *
    dsimp only at *
    have harg :
        -((seg.endp.sub seg.start).z / Real.sqrt ((seg.endp.sub seg.start).x * (seg.endp.sub seg.start).x + (seg.endp.sub seg.start).y * (seg.endp.sub seg.start).y + (seg.endp.sub seg.start).z * (seg.endp.sub seg.start).z)) *
          -((seg.endp.sub seg.start).z / Real.sqrt ((seg.endp.sub seg.start).x * (seg.endp.sub seg.start).x + (seg.endp.sub seg.start).y * (seg.endp.sub seg.start).y + (seg.endp.sub seg.start).z * (seg.endp.sub seg.start).z)) +
        0 * 0 +
        (seg.endp.sub seg.start).x / Real.sqrt ((seg.endp.sub seg.start).x * (seg.endp.sub seg.start).x + (seg.endp.sub seg.start).y * (seg.endp.sub seg.start).y + (seg.endp.sub seg.start).z * (seg.endp.sub seg.start).z) *
          ((seg.endp.sub seg.start).x / Real.sqrt ((seg.endp.sub seg.start).x * (seg.endp.sub seg.start).x + (seg.endp.sub seg.start).y * (seg.endp.sub seg.start).y + (seg.endp.sub seg.start).z * (seg.endp.sub seg.start).z)) = 1 := by
      field_simp
      linear_combination (-1 : ℝ) * hsq - (seg.endp.sub seg.start).y * hy
    rw [harg, Real.sqrt_one]

/-- Witness for `claim_C6`: the reflection of `(3,0,4)` in the unit normal
`(0,0,1)` keeps its norm, and a concrete horizontal segment has a unit
collision normal. -/
theorem claim_C6_witness :
    (reflectVel ⟨3, 0, 4⟩ ⟨0, 0, 1⟩).length = Vec3.length ⟨3, 0, 4⟩ ∧
    (segNormal ⟨⟨0, 0.1, 0⟩, ⟨1, 0.1, 0⟩⟩).length = 1 := by
  constructor
  · exact claim_C6.1 ⟨3, 0, 4⟩ ⟨0, 0, 1⟩ (by norm_num [Vec3.lengthSq])
  · refine claim_C6.2 ⟨⟨0, 0.1, 0⟩, ⟨1, 0.1, 0⟩⟩ ?_ ?_
    · intro h
      have hx := congrArg Vec3.x h
      norm_num [Vec3.sub] at hx
    · norm_num [Vec3.sub]

/-- C2 (corrected): for a degenerate zero-length segment the source divides
`0` by `0`, and the resulting NaN survives the `Math.min`/`Math.max` clamp and
poisons the projection point, so `pointToLineDistance` returns NaN — not the
distance to `a` — though no fault is raised; for every non-degenerate segment
it returns the (real-valued) Euclidean distance from `p` to the clamped
projection of `p` onto the segment. -/
theorem claim_C2 (p a b : Vec3) :
    (a = b → pointToLineDistanceJS p a b = none) ∧
    (a ≠ b → pointToLineDistanceJS p a b = some (pointToLineDistance p a b)) := by
  constructor
  · intro h
    subst h
    have hz : (a.sub a).lengthSq = 0 := by simp [Vec3.sub, Vec3.lengthSq]
    unfold pointToLineDistanceJS jsDiv jsClamp01
    dsimp only
    rw [if_pos hz]
    rfl
  · intro h
    have hz : (b.sub a).lengthSq ≠ 0 := fun h0 =>
      h ((Vec3.sub_eq_zero_iff b a).mp ((b.sub a).lengthSq_eq_zero_iff.mp h0)).symm
    unfold pointToLineDistanceJS jsDiv jsClamp01 pointToLineDistance
    dsimp only
    rw [if_neg hz]
    rfl

/-- Counterexample to C2 as stated: on the degenerate segment with both
endpoints `(0, 0.1, 0)` and the probe point `(1, 0.15, 0)` the JavaScript
evaluation returns NaN (`none`), which is not the Euclidean distance from the
probe to `a`. -/
theorem claim_C2_counterexample :
    pointToLineDistanceJS ⟨1, 0.15, 0⟩ ⟨0, 0.1, 0⟩ ⟨0, 0.1, 0⟩ ≠
      some (Vec3.distanceTo ⟨1, 0.15, 0⟩ ⟨0, 0.1, 0⟩) ∧
    pointToLineDistanceJS ⟨1, 0.15, 0⟩ ⟨0, 0.1, 0⟩ ⟨0, 0.1, 0⟩ = none := by
  have hz : ((⟨0, 0.1, 0⟩ : Vec3).sub ⟨0, 0.1, 0⟩).lengthSq = 0 := by
    simp [Vec3.sub, Vec3.lengthSq]
  have hnone : pointToLineDistanceJS ⟨1, 0.15, 0⟩ ⟨0, 0.1, 0⟩ ⟨0, 0.1, 0⟩ = none := by
    unfold pointToLineDistanceJS jsDiv jsClamp01
    dsimp only
    rw [if_pos hz]
    rfl
  exact ⟨by rw [hnone]; simp, hnone⟩

/-- Witness for `claim_C2` on a non-degenerate segment. -/
theorem claim_C2_witness :
    pointToLineDistanceJS ⟨0, 0.15, 0⟩ ⟨0, 0.1, 0⟩ ⟨1, 0.1, 0⟩ =
      some (pointToLineDistance ⟨0, 0.15, 0⟩ ⟨0, 0.1, 0⟩ ⟨1, 0.1, 0⟩) :=
  (claim_C2 ⟨0, 0.15, 0⟩ ⟨0, 0.1, 0⟩ ⟨1, 0.1, 0⟩).2
    (fun h => by have hx := congrArg Vec3.x h; norm_num at hx)

/-- If the ball's center coincides with the unclamped closest point of the
push computation, `ball.position - closestPoint` is the zero vector, THREE's
`normalize` (which divides by `length || 1`) maps it to the zero vector, and
the collision branch leaves the position unchanged. -/
lemma resolveSegment_position_of_center_at_foot (ball : Ball) (seg : Segment)
    (hON : ball.position = seg.start.add
      ((seg.endp.sub seg.start).normalize.multiplyScalar
        ((ball.position.sub seg.start).dot (seg.endp.sub seg.start).normalize))) :
    (resolveSegment ball seg).position = ball.position := by
  unfold resolveSegment
  by_cases hc : pointToLineDistance ball.position seg.start seg.endp < ball.radius
  · rw [if_pos hc]
    dsimp only
    have hzero : ball.position.sub (seg.start.add
        ((seg.endp.sub seg.start).normalize.multiplyScalar
          ((ball.position.sub seg.start).dot (seg.endp.sub seg.start).normalize)))
        = ⟨0, 0, 0⟩ :=
      (Vec3.sub_eq_zero_iff _ _).mpr hON
    rw [hzero]
    have hnz : (⟨0, 0, 0⟩ : Vec3).normalize = ⟨0, 0, 0⟩ := by
      simp [Vec3.normalize]
    rw [hnz]
    ext <;> simp [Vec3.add, Vec3.multiplyScalar]
  · rw [if_neg hc]

/-- C9 (corrected): when the ball center lies exactly at the closest point of
the unclamped projection, the push direction is the normalization of the zero
vector, which THREE maps to the zero vector (`divideScalar(length || 1)`), so
the resulting position is the unchanged — perfectly finite — old position and
the penetration is simply not resolved.  The claimed non-finite result does
not occur. -/
theorem claim_C9 (ball : Ball) (seg : Segment)
    (hON : ball.position = seg.start.add
      ((seg.endp.sub seg.start).normalize.multiplyScalar
        ((ball.position.sub seg.start).dot (seg.endp.sub seg.start).normalize))) :
    (resolveSegment ball seg).position = ball.position ∧
    pointToLineDistance (resolveSegment ball seg).position seg.start seg.endp =
      pointToLineDistance ball.position seg.start seg.endp := by
  have h := resolveSegment_position_of_center_at_foot ball seg hON
  exact ⟨h, by rw [h]⟩

/-- Counterexample to C9 as stated: a ball whose center sits on the segment
(`(0.5, 0.1, 0)` on the segment from `(0, 0.1, 0)` to `(1, 0.1, 0)`) takes the
collision branch (distance `0 < 0.15`), and the resulting position is the
well-defined, finite, unchanged point `(0.5, 0.1, 0)` — not an undefined
value. -/
theorem claim_C9_counterexample :
    pointToLineDistance ⟨0.5, 0.1, 0⟩ ⟨0, 0.1, 0⟩ ⟨1, 0.1, 0⟩ < (0.15 : ℝ) ∧
    (resolveSegment { position := ⟨0.5, 0.1, 0⟩, velocity := ⟨0, 0, -1⟩, radius := 0.15 }
        ⟨⟨0, 0.1, 0⟩, ⟨1, 0.1, 0⟩⟩).position = ⟨0.5, 0.1, 0⟩ := by
  constructor
  · rw [pointToLineDistance_eval ⟨0.5, 0.1, 0⟩ ⟨0, 0.1, 0⟩ ⟨1, 0.1, 0⟩ 0.5 0
      (by norm_num [Vec3.sub, Vec3.dot, Vec3.lengthSq, min_def, max_def])
      le_rfl
      (by norm_num [Vec3.sub, Vec3.add, Vec3.multiplyScalar, Vec3.lengthSq])]
    norm_num
  · apply resolveSegment_position_of_center_at_foot
    show (⟨0.5, 0.1, 0⟩ : Vec3) = Vec3.add ⟨0, 0.1, 0⟩ _
    rw [show (⟨1, 0.1, 0⟩ : Vec3).sub ⟨0, 0.1, 0⟩ = ⟨1, 0, 0⟩ by
      ext <;> norm_num [Vec3.sub]]
    rw [normalize_unitX]
    ext <;> norm_num [Vec3.add, Vec3.sub, Vec3.dot, Vec3.multiplyScalar]

/-! ### Vector algebra for the positional-correction analysis -/

lemma Vec3.dot_self (v : Vec3) : v.dot v = v.lengthSq := rfl

lemma Vec3.normalize_eq_smul (v : Vec3) :
    v.normalize = v.multiplyScalar v.length⁻¹ := by
  unfold normalize multiplyScalar
  ext <;> (dsimp only; rw [div_eq_mul_inv])

lemma Vec3.dot_smul_right (v w : Vec3) (c : ℝ) :
    v.dot (w.multiplyScalar c) = c * v.dot w := by
  unfold dot multiplyScalar
  dsimp only
  ring

lemma Vec3.dot_smul_left (v w : Vec3) (c : ℝ) :
    (v.multiplyScalar c).dot w = c * v.dot w := by
  unfold dot multiplyScalar
  dsimp only
  ring

lemma Vec3.smul_smul (v : Vec3) (c e : ℝ) :
    (v.multiplyScalar c).multiplyScalar e = v.multiplyScalar (c * e) := by
  unfold multiplyScalar
  ext <;> (dsimp only; ring)

lemma Vec3.dot_add_left (v w z : Vec3) :
    (v.add w).dot z = v.dot z + w.dot z := by
  unfold dot add
  dsimp only
  ring

lemma Vec3.sub_foot_dot (p a w : Vec3) (c : ℝ) :
    (p.sub (a.add (w.multiplyScalar c))).dot w = (p.sub a).dot w - c * w.dot w := by
  unfold dot add sub multiplyScalar
  dsimp only
  ring

lemma Vec3.add_smul_sub (p u q : Vec3) (c : ℝ) :
    (p.add (u.multiplyScalar c)).sub q = (p.sub q).add (u.multiplyScalar c) := by
  unfold add sub multiplyScalar
  ext <;> (dsimp only; ring)

lemma Vec3.add_same_smul (u : Vec3) (c : ℝ) :
    u.add (u.multiplyScalar c) = u.multiplyScalar (1 + c) := by
  unfold add multiplyScalar
  ext <;> (dsimp only; ring)

/-- Compare `pointToLineDistance` against a bound via squared distances. -/
lemma pointToLineDistance_lt (p a b : Vec3) (t r : ℝ)
    (ht : max 0 (min 1 ((p.sub a).dot (b.sub a) / (b.sub a).lengthSq)) = t)
    (hr : 0 < r)
    (h : (p.sub (a.add ((b.sub a).multiplyScalar t))).lengthSq < r * r) :
    pointToLineDistance p a b < r := by
  unfold pointToLineDistance Vec3.distanceTo Vec3.length
  dsimp only
  rw [ht]
  calc Real.sqrt ((p.sub (a.add ((b.sub a).multiplyScalar t))).lengthSq)
      < Real.sqrt (r * r) := Real.sqrt_lt_sqrt (Vec3.lengthSq_nonneg _) h
    _ = r := Real.sqrt_mul_self hr.le

/-- Witness for `claim_C9` at a second on-segment center. -/
theorem claim_C9_witness :
    (resolveSegment { position := ⟨0.25, 0.1, 0⟩, velocity := ⟨0, 0, 1⟩, radius := 0.15 }
        ⟨⟨0, 0.1, 0⟩, ⟨1, 0.1, 0⟩⟩).position = ⟨0.25, 0.1, 0⟩ := by
  refine (claim_C9 _ _ ?_).1
  show (⟨0.25, 0.1, 0⟩ : Vec3) = Vec3.add ⟨0, 0.1, 0⟩ _
  rw [show (⟨1, 0.1, 0⟩ : Vec3).sub ⟨0, 0.1, 0⟩ = ⟨1, 0, 0⟩ by
    ext <;> norm_num [Vec3.sub]]
  rw [normalize_unitX]
  ext <;> norm_num [Vec3.add, Vec3.sub, Vec3.dot, Vec3.multiplyScalar]

/-- C1 (corrected): the positional correction pushes the ball away from the
*unclamped* projection of its center onto the segment's carrier line — the
source never clamps that projection.  When the unclamped parameter happens to
lie in `[0, 1]` (the foot is on the segment) and the center is off that foot,
the push by `radius - d + 0.01` makes the distance from the pushed ball to the
segment exactly `radius + 0.01`, which is at least the radius. -/
theorem claim_C1 (ball : Ball) (seg : Segment)
    (hw : seg.endp.sub seg.start ≠ ⟨0, 0, 0⟩)
    (h0 : 0 ≤ (ball.position.sub seg.start).dot (seg.endp.sub seg.start) /
      (seg.endp.sub seg.start).lengthSq)
    (h1 : (ball.position.sub seg.start).dot (seg.endp.sub seg.start) /
      (seg.endp.sub seg.start).lengthSq ≤ 1)
    (hp : ball.position ≠ seg.start.add ((seg.endp.sub seg.start).multiplyScalar
      ((ball.position.sub seg.start).dot (seg.endp.sub seg.start) /
        (seg.endp.sub seg.start).lengthSq)))
    (hd : pointToLineDistance ball.position seg.start seg.endp < ball.radius) :
    pointToLineDistance (resolveSegment ball seg).position seg.start seg.endp
      = ball.radius + 0.01 ∧
    ball.radius ≤
      pointToLineDistance (resolveSegment ball seg).position seg.start seg.endp := by
  obtain ⟨p, vel, r⟩ := ball
  obtain ⟨a, b⟩ := seg
  dsimp only at *
  set w := b.sub a with hwdef
  set S := w.lengthSq with hSdef
  set D := (p.sub a).dot w with hDdef
  set t0 := D / S with ht0def
  set foot := a.add (w.multiplyScalar t0) with hfootdef
  set u := p.sub foot with hudef
  have hS0 : S ≠ 0 := fun h => hw ((Vec3.lengthSq_eq_zero_iff w).mp h)
  have hL : 0 < w.length := Vec3.length_pos_of_ne w hw
  have hLne : w.length ≠ 0 := ne_of_gt hL
  have hsqL : w.length * w.length = S := Vec3.sq_length w
  -- the foot the code computes (via the normalized direction) is the t0-foot
  have hdirfoot :
      a.add (w.normalize.multiplyScalar ((p.sub a).dot w.normalize)) = foot := by
    rw [Vec3.normalize_eq_smul, Vec3.dot_smul_right, Vec3.smul_smul, hfootdef]
    congr 1
    congr 1
    rw [ht0def, ← hsqL, ← hDdef]
    field_simp
  -- u is orthogonal to the segment direction
  have hperp : u.dot w = 0 := by
    rw [hudef, hfootdef, Vec3.sub_foot_dot, Vec3.dot_self, ← hSdef, ← hDdef,
      ht0def]
    field_simp
  -- the clamped distance is the distance to the foot
  have hdist : pointToLineDistance p a b = u.length := by
    unfold pointToLineDistance Vec3.distanceTo
    dsimp only
    rw [← hwdef, ← hSdef, ← hDdef, ← ht0def, min_eq_right h1, max_eq_right h0,
      ← hfootdef, ← hudef]
  have hu0 : u ≠ ⟨0, 0, 0⟩ := fun h => hp ((Vec3.sub_eq_zero_iff p foot).mp h)
  have hd0 : 0 < u.length := Vec3.length_pos_of_ne u hu0
  have hdne : u.length ≠ 0 := ne_of_gt hd0
  rw [hdist] at hd
  have hr001 : 0 < r + 0.01 := by linarith
  set c := u.length⁻¹ * (r - u.length + 0.01) with hcdef
  -- the pushed position
  have hpos1 : (resolveSegment ⟨p, vel, r⟩ ⟨a, b⟩).position
      = p.add (u.multiplyScalar c) := by
    unfold resolveSegment
    rw [if_pos (by rw [hdist]; exact hd)]
    dsimp only
    rw [← hwdef, hdirfoot, ← hudef, Vec3.normalize_eq_smul, Vec3.smul_smul,
      hdist]
  rw [hpos1]
  -- the dot with the direction is unchanged, so the foot is unchanged
  have hDnew : ((p.add (u.multiplyScalar c)).sub a).dot w = D := by
    rw [Vec3.add_smul_sub, Vec3.dot_add_left, Vec3.dot_smul_left, hperp,
      ← hDdef]
    ring
  have hnew : pointToLineDistance (p.add (u.multiplyScalar c)) a b
      = |1 + c| * u.length := by
    unfold pointToLineDistance Vec3.distanceTo
    dsimp only
    rw [← hwdef, ← hSdef, hDnew, ← ht0def, min_eq_right h1, max_eq_right h0,
      ← hfootdef, Vec3.add_smul_sub, ← hudef, Vec3.add_same_smul,
      Vec3.length_multiplyScalar]
  have hcval : |1 + c| * u.length = r + 0.01 := by
    have h1c : 1 + c = (r + 0.01) / u.length := by
      rw [hcdef]
      field_simp
      ring
    rw [h1c, abs_of_pos (div_pos hr001 hd0)]
    field_simp
  rw [hnew, hcval]
  exact ⟨rfl, by linarith⟩

/-- Counterexample to C1 as stated: the ball at `(1.12, 0.15, 0)` penetrates
the segment from `(0, 0.1, 0)` to `(1, 0.1, 0)` past its right endpoint
(clamped distance `0.13 < 0.15`), but the push direction is taken from the
*unclamped* foot `(1.12, 0.1, 0)` — not the claimed clamped projection — so
the ball is pushed straight up to `(1.12, 0.18, 0)` and its distance to the
segment, `√0.0208 ≈ 0.144`, is still below its radius after the response. -/
theorem claim_C1_counterexample :
    pointToLineDistance ⟨1.12, 0.15, 0⟩ ⟨0, 0.1, 0⟩ ⟨1, 0.1, 0⟩ < (0.15 : ℝ) ∧
    pointToLineDistance
      (resolveSegment { position := ⟨1.12, 0.15, 0⟩, velocity := ⟨1, 0, 0⟩, radius := 0.15 }
        ⟨⟨0, 0.1, 0⟩, ⟨1, 0.1, 0⟩⟩).position ⟨0, 0.1, 0⟩ ⟨1, 0.1, 0⟩ < (0.15 : ℝ) := by
  have hd13 : pointToLineDistance ⟨1.12, 0.15, 0⟩ ⟨0, 0.1, 0⟩ ⟨1, 0.1, 0⟩ = 0.13 :=
    pointToLineDistance_eval ⟨1.12, 0.15, 0⟩ ⟨0, 0.1, 0⟩ ⟨1, 0.1, 0⟩ 1 0.13
      (by norm_num [Vec3.sub, Vec3.dot, Vec3.lengthSq, min_def, max_def])
      (by norm_num)
      (by norm_num [Vec3.sub, Vec3.add, Vec3.multiplyScalar, Vec3.lengthSq])
  have hposnew :
      (resolveSegment { position := ⟨1.12, 0.15, 0⟩, velocity := ⟨1, 0, 0⟩, radius := 0.15 }
        ⟨⟨0, 0.1, 0⟩, ⟨1, 0.1, 0⟩⟩).position = ⟨1.12, 0.18, 0⟩ := by
    unfold resolveSegment
    dsimp only
    rw [if_pos (by rw [hd13]; norm_num)]
    rw [show (⟨1, 0.1, 0⟩ : Vec3).sub ⟨0, 0.1, 0⟩ = ⟨1, 0, 0⟩ by
      ext <;> norm_num [Vec3.sub]]
    rw [normalize_unitX]
    rw [show (⟨1.12, 0.15, 0⟩ : Vec3).sub ((⟨0, 0.1, 0⟩ : Vec3).add
        ((⟨1, 0, 0⟩ : Vec3).multiplyScalar
          (((⟨1.12, 0.15, 0⟩ : Vec3).sub ⟨0, 0.1, 0⟩).dot ⟨1, 0, 0⟩))) = ⟨0, 0.05, 0⟩ by
      ext <;> norm_num [Vec3.sub, Vec3.add, Vec3.dot, Vec3.multiplyScalar]]
    rw [Vec3.normalize_eval ⟨0, 0.05, 0⟩ 0.05 (by norm_num) (by norm_num [Vec3.lengthSq])]
    rw [hd13]
    ext <;> norm_num [Vec3.add, Vec3.multiplyScalar]
  constructor
  · rw [hd13]; norm_num
  · rw [hposnew]
    exact pointToLineDistance_lt ⟨1.12, 0.18, 0⟩ ⟨0, 0.1, 0⟩ ⟨1, 0.1, 0⟩ 1 0.15
      (by norm_num [Vec3.sub, Vec3.dot, Vec3.lengthSq, min_def, max_def])
      (by norm_num)
      (by norm_num [Vec3.sub, Vec3.add, Vec3.multiplyScalar, Vec3.lengthSq])

/-- Witness for `claim_C1`: an interior-foot penetration is pushed to
distance exactly `radius + 0.01`. -/
theorem claim_C1_witness :
    pointToLineDistance
      (resolveSegment { position := ⟨0.5, 0.15, 0.12⟩, velocity := ⟨0, 0, 1⟩, radius := 0.15 }
        ⟨⟨0, 0.1, 0⟩, ⟨1, 0.1, 0⟩⟩).position ⟨0, 0.1, 0⟩ ⟨1, 0.1, 0⟩
      = (0.15 : ℝ) + 0.01 := by
  refine (claim_C1 { position := ⟨0.5, 0.15, 0.12⟩, velocity := ⟨0, 0, 1⟩, radius := 0.15 }
    ⟨⟨0, 0.1, 0⟩, ⟨1, 0.1, 0⟩⟩ ?_ ?_ ?_ ?_ ?_).1
  · intro h
    have hx := congrArg Vec3.x h
    norm_num [Vec3.sub] at hx
  · norm_num [Vec3.sub, Vec3.dot, Vec3.lengthSq]
  · norm_num [Vec3.sub, Vec3.dot, Vec3.lengthSq]
  · intro h
    have hy := congrArg Vec3.y h
    norm_num [Vec3.sub, Vec3.add, Vec3.dot, Vec3.lengthSq, Vec3.multiplyScalar] at hy
  · exact pointToLineDistance_lt ⟨0.5, 0.15, 0.12⟩ ⟨0, 0.1, 0⟩ ⟨1, 0.1, 0⟩ 0.5 0.15
      (by norm_num [Vec3.sub, Vec3.dot, Vec3.lengthSq, min_def, max_def])
      (by norm_num)
      (by norm_num [Vec3.sub, Vec3.add, Vec3.multiplyScalar, Vec3.lengthSq])

/-! ### The C10 scenario: a push across the wall that is noticed a tick late -/

/-- A ball heading for the wall at `x = 4.35`. -/
noncomputable def ballNearWall : Ball :=
  { position := ⟨4.26, 0.15, 0⟩, velocity := ⟨1, 0, 0⟩, radius := 0.15 }

/-- A vertical barrier segment just inside the wall. -/
noncomputable def segNearWall : Segment := ⟨⟨4.2625, 0.1, -1⟩, ⟨4.2625, 0.1, 1⟩⟩

/-- `ballNearWall` after one integration step of `deltaTime = 0.04`. -/
noncomputable def ballAtWall : Ball :=
  { position := ⟨4.3, 0.15, 0⟩, velocity := ⟨1, 0, 0⟩, radius := 0.15 }

/-- The running state for the C10 scenario. -/
noncomputable def stateNearWall : GameState where
  gameStarted := true
  gameTime := 0
  ballSpeed := 2
  nextBallSpawn := 5
  balls := [ballNearWall]
  lines := [[segNearWall]]
  isDrawing := false
  currentLinePoints := []

/-- The ball after the first tick of the C10 scenario: integrated to
`x = 4.3` (inside the breach bound `4.35`), then reflected and pushed by the
collision response to `x = 4.3585` — beyond the bound. -/
noncomputable def ballPushedOut : Ball :=
  { position := ⟨4.3585, 0.228, 0⟩, velocity := ⟨-1, 0, 0⟩, radius := 0.15 }

/-- C10: the boundary check runs on the post-integration, pre-collision
position, so a tick can end with a ball beyond `|x| > boundarySize/2 - radius`
(pushed there by the positional correction) without transitioning to
game-over; the breach is only caught — after the next integration step — on
the following tick. -/
theorem claim_C10 :
    (tick 0.04 0 stateNearWall).gameStarted = true ∧
    (∃ b ∈ (tick 0.04 0 stateNearWall).balls, breachesBoundary b) ∧
    (tick 0.001 0 (tick 0.04 0 stateNearWall)).gameStarted = false := by
  have hmove : moveBall 0.04 ballNearWall = ballAtWall := by
    unfold moveBall ballNearWall ballAtWall
    ext <;> norm_num [Vec3.add, Vec3.multiplyScalar]
  have hnobreach : ¬ breachesBoundary ballAtWall := by
    unfold breachesBoundary boundarySize worldSize ballAtWall
    push_neg
    constructor <;> · rw [abs_of_nonneg (by norm_num)]; norm_num
  have hdseg : pointToLineDistance ⟨4.3, 0.15, 0⟩ segNearWall.start segNearWall.endp
      = 0.0625 :=
    pointToLineDistance_eval ⟨4.3, 0.15, 0⟩ ⟨4.2625, 0.1, -1⟩ ⟨4.2625, 0.1, 1⟩ 0.5 0.0625
      (by norm_num [Vec3.sub, Vec3.dot, Vec3.lengthSq, min_def, max_def])
      (by norm_num)
      (by norm_num [Vec3.sub, Vec3.add, Vec3.multiplyScalar, Vec3.lengthSq])
  have hresolve : resolveSegment ballAtWall segNearWall = ballPushedOut := by
    unfold resolveSegment segNormal reflectVel ballPushedOut ballAtWall
    dsimp only
    rw [if_pos (by rw [hdseg]; norm_num)]
    show Ball.mk _ _ _ = _
    rw [show segNearWall.endp.sub segNearWall.start = ⟨0, 0, 2⟩ by
      ext <;> norm_num [segNearWall, Vec3.sub]]
    rw [show Vec3.normalize ⟨0, 0, 2⟩ = ⟨0, 0, 1⟩ by
      rw [Vec3.normalize_eval ⟨0, 0, 2⟩ 2 (by norm_num) (by norm_num [Vec3.lengthSq])]
      ext <;> norm_num]
    rw [hdseg]
    rw [show (⟨4.3, 0.15, 0⟩ : Vec3).sub (segNearWall.start.add
        ((⟨0, 0, 1⟩ : Vec3).multiplyScalar
          (((⟨4.3, 0.15, 0⟩ : Vec3).sub segNearWall.start).dot ⟨0, 0, 1⟩)))
        = ⟨0.0375, 0.05, 0⟩ by
      ext <;> norm_num [segNearWall, Vec3.sub, Vec3.add, Vec3.multiplyScalar, Vec3.dot]]
    rw [Vec3.normalize_eval ⟨0.0375, 0.05, 0⟩ 0.0625 (by norm_num)
      (by norm_num [Vec3.lengthSq])]
    ext <;> norm_num [Vec3.add, Vec3.sub, Vec3.multiplyScalar, Vec3.dot]
  have hgo : updateBallsGo 0.04 [[segNearWall]] [ballNearWall]
      = ([ballPushedOut], false) := by
    unfold updateBallsGo
    dsimp only
    rw [hmove, if_neg hnobreach]
    unfold updateBallsGo checkBallLineCollision
    simp only [List.foldl_cons, List.foldl_nil]
    rw [hresolve]
  have hgo2 : updateBallsGo 0.04 (tickPhase 0.04 0 stateNearWall).lines
      ((tickPhase 0.04 0 stateNearWall).balls).reverse = ([ballPushedOut], false) := by
    rw [tickPhase_lines, tickPhase_balls, if_neg (by norm_num [stateNearWall])]
    show updateBallsGo 0.04 [[segNearWall]] [ballNearWall].reverse = _
    rw [List.reverse_singleton]
    exact hgo
  have h1 : tick 0.04 0 stateNearWall
      = { tickPhase 0.04 0 stateNearWall with
          balls := [ballPushedOut].reverse,
          gameStarted := if false then false
            else (tickPhase 0.04 0 stateNearWall).gameStarted } := by
    rw [tick_eq_of_started 0.04 0 stateNearWall rfl,
      updateBalls_eval 0.04 _ [ballPushedOut] false hgo2]
  have hgs1 : (tick 0.04 0 stateNearWall).gameStarted = true := by
    rw [h1]
    show (tickPhase 0.04 0 stateNearWall).gameStarted = true
    rw [tickPhase_gameStarted]
    rfl
  have hballs1 : (tick 0.04 0 stateNearWall).balls = [ballPushedOut] := by
    rw [h1]
    rfl
  have hgt1 : (tick 0.04 0 stateNearWall).gameTime = 0 + 0.04 := by
    rw [h1]
    show (tickPhase 0.04 0 stateNearWall).gameTime = 0 + 0.04
    rw [tickPhase_gameTime]
    norm_num [stateNearWall]
  have hnbs1 : (tick 0.04 0 stateNearWall).nextBallSpawn = 5 := by
    rw [h1]
    show (tickPhase 0.04 0 stateNearWall).nextBallSpawn = 5
    rw [tickPhase_nextBallSpawn, if_neg (by norm_num [stateNearWall])]
    rfl
  have hout : breachesBoundary ballPushedOut := by
    unfold breachesBoundary ballPushedOut boundarySize worldSize
    left
    dsimp only
    rw [abs_of_nonneg (by norm_num)]
    norm_num
  refine ⟨hgs1, ⟨ballPushedOut, by rw [hballs1]; simp, hout⟩, ?_⟩
  rw [tick_eq_of_started 0.001 0 _ hgs1]
  apply (updateBalls_gameStarted 0.001 _ (by rw [tickPhase_gameStarted]; exact hgs1)).mpr
  refine ⟨ballPushedOut, ?_, ?_⟩
  · rw [tickPhase_balls, if_neg (by rw [hgt1, hnbs1]; norm_num), hballs1]
    simp
  · unfold breachesBoundary moveBall ballPushedOut boundarySize worldSize
    left
    simp only [Vec3.add, Vec3.multiplyScalar]
    rw [abs_of_nonneg (by norm_num)]
    norm_num

end BallBarrier
